import Mathlib

/-!
# Verification of `obspy.signal.invsim` (instrument response simulation and correction)

A shallow embedding of `src/trunk/obspy.signal/obspy/signal/invsim.py` in Lean 4.

Modelling conventions:
* Python/NumPy double-precision floats are modelled as real numbers `ℝ`,
  complex128 values as `ℂ`.
* NumPy arrays are modelled as lists; functions that raise (`ValueError`,
  `ZeroDivisionError`, `TypeError`) are modelled with `Option`/`Except`,
  `none`/`error` standing for the raised exception.
* In-place mutation of NumPy buffers inside `seisSim` is modelled with an
  explicit heap of array cells (see `Heap` below); arrays whose identity is
  observable (the caller's data buffer, the pole/zero lists of the response
  dictionaries, the local `data` and `freq_response` buffers) live in heap
  cells, while arrays that are created, read once and dropped are modelled
  as plain values.
-/

open scoped BigOperators

/-- `np.linspace a b num`: `num` evenly spaced samples from `a` to `b`
inclusive; `num = 1` gives `[a]` (the endpoint is ignored), `num = 0` gives
the empty array. -/
noncomputable def linspace (a b : ℝ) (num : ℕ) : List ℝ :=
  if num = 0 then []
  else if num = 1 then [a]
  else (List.range num).map (fun i : ℕ => a + (i : ℝ) * (b - a) / ((num : ℝ) - 1))

/-- The raised-cosine map `x ↦ 0.5 * (1 + cos x)` applied to each taper node
(`0.5 * (1 + np.cos (...))` in `cosTaper`, invsim.py lines 71 and 73). -/
noncomputable def raisedCos (x : ℝ) : ℝ := 0.5 * (1 + Real.cos x)

open Classical in
/-- The taper length of `cosTaper` (invsim.py lines 65-68):
`int(npts * p / 2.0)`, incremented by one unless `p` is `0.0` or `1.0`. -/
noncomputable def cosTaperFrac (npts : ℕ) (p : ℝ) : ℕ :=
  if p = 0 ∨ p = 1 then ⌊((npts : ℝ) * p / 2)⌋₊ else ⌊((npts : ℝ) * p / 2)⌋₊ + 1

/-- `cosTaper npts p` (invsim.py lines 41-73).  The result is the
concatenation of a rising raised-cosine ramp over `linspace(pi, 2*pi, frac)`,
a flat middle of `npts - 2*frac` ones, and a falling ramp over
`linspace(0, pi, frac)`.  When `npts - 2*frac` is negative, `np.ones` raises
`ValueError: negative dimensions are not allowed`; this is modelled by
`none`. -/
noncomputable def cosTaper (npts : ℕ) (p : ℝ) : Option (List ℝ) :=
  if 2 * cosTaperFrac npts p ≤ npts then
    some ((linspace Real.pi (2 * Real.pi) (cosTaperFrac npts p)).map raisedCos
      ++ List.replicate (npts - 2 * cosTaperFrac npts p) 1
      ++ (linspace 0 Real.pi (cosTaperFrac npts p)).map raisedCos)
  else none

/-- A poles-zeros-gain instrument description (`{'poles': ..., 'zeros': ...,
'gain': ..., 'sensitivity': ...}`). -/
structure PAZ where
  poles : List ℂ
  zeros : List ℂ
  gain : ℝ
  sensitivity : ℝ

/-- The reference Wood-Anderson instrument, invsim.py lines 37-38.  A
complex number is written `⟨re, im⟩`.  The first pole of the Python source,
`-6.283 + 4.7124j`, is `⟨-6.283, 4.7124⟩`; the second entry of the Python
pole list is the float `-6.283 - 4.7124` (the imaginary unit `j` is missing
in the source), i.e. the purely real complex number `⟨-6.283 - 4.7124, 0⟩`. -/
noncomputable def WOODANDERSON : PAZ :=
  { poles := [⟨-6.283, 4.7124⟩, ⟨-6.283 - 4.7124, 0⟩]
    zeros := [0]
    gain := 1.0
    sensitivity := 2080 }

/-- `np.abs(spec).max()` for a nonempty `spec` (invsim.py line 276).
On an empty array `np.max` raises; emptiness is guarded in `specInv`. -/
noncomputable def maxAbs (spec : List ℂ) : ℝ :=
  (spec.map Complex.abs).foldr max 0

/-- `waterlevel spec wlev` (invsim.py lines 268-276): the absolute spectral
value corresponding to `wlev` dB, `np.abs(spec).max() * 10.0 ** (-wlev / 20.0)`. -/
noncomputable def waterlevel (spec : List ℂ) (wlev : ℝ) : ℝ :=
  maxAbs spec * (10 : ℝ) ^ (-wlev / 20)

open Classical in
/-- The clamp step of `specInv` (invsim.py lines 292-297): a bin whose
magnitude is strictly between `0` and the water level `swamp` is rescaled to
magnitude `swamp`, phase untouched (`spec[idx] *= swamp / sqrt_len[idx]`). -/
noncomputable def clampBin (swamp : ℝ) (z : ℂ) : ℂ :=
  if Complex.abs z < swamp ∧ 0 < Complex.abs z then z * ((swamp : ℂ) / (Complex.abs z : ℂ))
  else z

open Classical in
/-- The inversion step of `specInv` (invsim.py lines 300-304): bins of
positive magnitude are replaced by their complex reciprocal
(`spec[inn] = 1.0 / spec[inn]`), bins of zero magnitude are set to `0+0j`
(`spec[sqrt_len == 0.0] = complex(0.0, 0.0)`). -/
noncomputable def invBin (z : ℂ) : ℂ :=
  if 0 < Complex.abs z then 1 / z else 0

/-- `specInv spec wlev` (invsim.py lines 279-305), as the final contents of
the in-place mutated spectrum: clamp every bin to the water level, then
invert.  On an empty spectrum the very first step,
`np.abs(spec).max()` inside `waterlevel`, raises
`ValueError: zero-size array to reduction operation maximum which has no
identity`; this is modelled by `none`. -/
noncomputable def specInv (spec : List ℂ) (wlev : ℝ) : Option (List ℂ) :=
  match spec with
  | [] => none
  | _ :: _ => some (spec.map (fun z => invBin (clampBin (waterlevel spec wlev) z)))

/-- One convolution step of `np.poly`: multiply the coefficient list `a`
(highest degree first) by the linear factor `x - r`
(`np.convolve(a, [1, -r])`). -/
def polyMulLin (a : List ℂ) (r : ℂ) : List ℂ :=
  (a ++ [0]).zipWith (fun c d => c - r * d) (0 :: a)

/-- `np.poly roots`: monic polynomial coefficients (highest degree first)
with the given roots, built by repeated convolution with `[1, -r]`;
`np.poly []` is `[1]`. -/
def poly (roots : List ℂ) : List ℂ :=
  roots.foldl polyMulLin [1]

/-- `np.polyval p x` with coefficients highest degree first (Horner). -/
def polyval (p : List ℂ) (x : ℂ) : ℂ :=
  p.foldl (fun y c => y * x + c) 0

/-- `pazToFreqResp poles zeros scale_fac t_samp nfft pitsa`
(invsim.py lines 219-265).  `scipy.signal.ltisys.zpk2tf` produces the
transfer-function coefficients `b = scale_fac * np.poly(zeros)`,
`a = np.poly(poles)`; the response is evaluated by `scipy.signal.freqs` at
`s = 1j * w` for `w = 2*pi*f` on the grid
`f = np.linspace(0, fy, nfft//2 + 1)` with `fy = 1/(t_samp*2)`, i.e.
`h = polyval(b, s)/polyval(a, s)`; with `pitsa=True` (the default) the
conjugate of `h` is returned. -/
noncomputable def pazToFreqResp (poles zeros : List ℂ) (scale_fac : ℝ)
    (t_samp : ℝ) (nfft : ℕ) (pitsa : Bool) : List ℂ :=
  let b := (poly zeros).map (fun c => (scale_fac : ℂ) * c)
  let a := poly poles
  let f := linspace 0 (1 / (t_samp * 2)) (nfft / 2 + 1)
  let h := f.map (fun fr =>
    polyval b (Complex.I * (2 * Real.pi * fr)) / polyval a (Complex.I * (2 * Real.pi * fr)))
  if pitsa then h.map (starRingEnd ℂ) else h

/-- The raw analog frequency response of the rational transfer function
built from zeros/poles/gain, written after the words of the spec (section
4.2): `H(s) = gain * prod (s - zero) / prod (s - pole)`, to be compared with
the implementation `pazToFreqResp`. -/
noncomputable def analogRespSpec (poles zeros : List ℂ) (gain : ℝ) (s : ℂ) : ℂ :=
  (gain : ℂ) * (zeros.map (fun z => s - z)).prod / (poles.map (fun p => s - p)).prod

open Classical in
/-- `paz2AmpValueOfFreqResp paz freq` (invsim.py lines 463-488): the
response amplitude at a single frequency, `abs(fac) * gain` where `fac`
starts at `1`, is multiplied by `jw - zero` for every zero and divided by
`jw - pole` for every pole, with `jw = complex(0, 2*pi*freq)`.  When `jw`
equals one of the poles, the Python complex division `fac /= jw - pole`
raises `ZeroDivisionError`; that error path is modelled by `none`. -/
noncomputable def paz2AmpValueOfFreqResp (paz : PAZ) (freq : ℝ) : Option ℝ :=
  (paz.poles.foldl
    (fun f p => f.bind (fun fac =>
      if (⟨0, 2 * Real.pi * freq⟩ : ℂ) - p = 0 then none
      else some (fac / ((⟨0, 2 * Real.pi * freq⟩ : ℂ) - p))))
    (some (paz.zeros.foldl
      (fun fac z => fac * ((⟨0, 2 * Real.pi * freq⟩ : ℂ) - z)) 1))).map
    (fun fac => Complex.abs fac * paz.gain)

open Classical in
/-- `estimateWoodAndersonAmplitude paz amplitude timespan`
(invsim.py lines 542-562): dominant frequency `1/(2*timespan)`, half the
peak-to-peak amplitude, rescaled from the instrument response to the
reference Wood-Anderson response and converted to millimeters.  Python
raises `ZeroDivisionError` when `timespan` is zero
(`freq = 1.0 / (2 * timespan)`, line 556), when the instrument response
amplitude times the sensitivity is zero (`wa_ampl /= ...`, line 558), or
inside either `paz2AmpValueOfFreqResp` call; each of these error paths is
modelled by `none`. -/
noncomputable def estimateWoodAndersonAmplitude (paz : PAZ)
    (amplitude timespan : ℝ) : Option ℝ :=
  if timespan = 0 then none
  else
    (paz2AmpValueOfFreqResp paz (1 / (2 * timespan))).bind (fun ampResp =>
      if ampResp * paz.sensitivity = 0 then none
      else (paz2AmpValueOfFreqResp WOODANDERSON (1 / (2 * timespan))).map
        (fun waResp => amplitude / 2 / (ampResp * paz.sensitivity)
          * (waResp * WOODANDERSON.sensitivity) * 1000))

/-- `estimateMagnitude paz amplitude timespan h_dist`
(invsim.py lines 491-539) for list inputs: Python's
`zip(paz, amplitude, timespan)` truncates to the SHORTEST of the three
lists; the loop accumulates `wa_ampl_mean += estimateWoodAndersonAmplitude
(...)`, and any `ZeroDivisionError` raised by a reading propagates (the
accumulating fold stays `none`).  When the zip is empty the loop body never
runs, `count` stays `0`, and `wa_ampl_mean /= count` raises
`ZeroDivisionError`; both error paths are modelled by `none`. -/
noncomputable def estimateMagnitude (paz : List PAZ)
    (amplitude timespan : List ℝ) (h_dist : ℝ) : Option ℝ :=
  ((paz.zip (amplitude.zip timespan)).foldl
      (fun acc r => acc.bind (fun s =>
        (estimateWoodAndersonAmplitude r.1 r.2.1 r.2.2).map (fun w => s + w)))
      (some 0)).bind (fun s =>
    if (paz.zip (amplitude.zip timespan)).length = 0 then none
    else some (Real.logb 10 (s / ((paz.zip (amplitude.zip timespan)).length : ℝ))
      + Real.logb 10 (h_dist / 100) + 0.00301 * (h_dist - 100) + 3.0))

/-- Post-processing of the response values returned by the external
`clibevresp.evresp` call (invsim.py lines 175-179): the response is
conjugated (`h = np.conj(h)`) and the last (Nyquist) bin is forced to be
purely real (`h[-1] = h[-1].real + 0.0j`). -/
noncomputable def evalrespPost (rvec : List ℂ) : List ℂ :=
  let h := rvec.map (starRingEnd ℂ)
  h.set (h.length - 1) (Complex.ofReal (h.getD (h.length - 1) 0).re)

/-- Resource model of `evalresp` (invsim.py lines 105-110 and 172-187).
A temporary file is created and written before the external call
(lines 106-110); the external `clibevresp.evresp` call and the reading of
its result (lines 172-179) are the boundary, modelled by the parameter
`ext` (`Except.error` standing for any exception raised there, e.g. a NULL
result pointer); `os.remove(tempfile)` (lines 181-184) runs only after that
boundary returns normally, and its own failure is swallowed by the bare
`except: pass` (modelled by the parameter `removeOk`).  The first component
of the result records whether the temporary file still exists when
`evalresp` returns or raises. -/
noncomputable def evalrespTemp (ext : Except String (List ℂ)) (removeOk : Bool) :
    Bool × Except String (List ℂ) :=
  match ext with
  | Except.error e => (true, Except.error e)
  | Except.ok rvec => (!removeOk, Except.ok (evalrespPost rvec))

/-- A reference to a NumPy array object. -/
abbrev Ref := ℕ

/-- A heap of NumPy array cells.  Real-valued arrays are stored with zero
imaginary parts. -/
structure Heap where
  cells : List (List ℂ)

/-- Read the array behind a reference (empty for a dangling reference). -/
def Heap.read (h : Heap) (r : Ref) : List ℂ := h.cells.getD r []

/-- Allocate a fresh array cell, returning the new heap and the new
reference. -/
def Heap.alloc (h : Heap) (v : List ℂ) : Heap × Ref :=
  (⟨h.cells ++ [v]⟩, h.cells.length)

/-- Overwrite the array behind a reference in place. -/
def Heap.write (h : Heap) (r : Ref) (v : List ℂ) : Heap := ⟨h.cells.set r v⟩

/-- A `paz_remove`/`paz_simulate` dictionary as passed to `seisSim`: the
`'poles'` and `'zeros'` entries are caller-owned list objects, modelled as
heap references; `'gain'` and `'sensitivity'` are scalars. -/
structure PazRef where
  poles : Ref
  zeros : Ref
  gain : ℝ
  sensitivity : ℝ

/-- `np.fft.rfft x n`: the first `n/2 + 1` bins of the discrete Fourier
transform of `x` zero-padded (or truncated) to length `n`,
`X_j = sum_k x_k exp(-2 pi i j k / n)`. -/
noncomputable def rfft (x : List ℂ) (n : ℕ) : List ℂ :=
  (List.range (n / 2 + 1)).map (fun j : ℕ =>
    ∑ k ∈ Finset.range n,
      x.getD k 0 * Complex.exp (-(2 * Real.pi * Complex.I) * j * k / n))

open Classical in
/-- The Hermitian extension of an rfft half-spectrum `a` to the full length
`2*(len a - 1)`: bins beyond the Nyquist bin are the conjugates of their
mirror bins. -/
noncomputable def hermExt (a : List ℂ) (j : ℕ) : ℂ :=
  if j ≤ a.length - 1 then a.getD j 0
  else starRingEnd ℂ (a.getD (2 * (a.length - 1) - j) 0)

/-- `np.fft.irfft a` with the default output length `n = 2*(len a - 1)`:
the inverse DFT of the Hermitian extension of `a`; the output is real
(stored with zero imaginary parts). -/
noncomputable def irfft (a : List ℂ) : List ℂ :=
  (List.range (2 * (a.length - 1))).map (fun k : ℕ =>
    Complex.ofReal ((∑ j ∈ Finset.range (2 * (a.length - 1)),
        hermExt a j * Complex.exp (2 * Real.pi * Complex.I * j * k
          / (2 * (a.length - 1)))).re
      / (2 * (a.length - 1))))

/-- `data -= data.mean()` (invsim.py lines 400-401). -/
noncomputable def subMean (l : List ℂ) : List ℂ :=
  l.map (fun x => x - l.sum / (l.length : ℂ))

open Classical in
/-- The frequency-domain cosine window built from `pre_filt`
(invsim.py lines 430-440): zero outside `[fl1, fl4]`, raised-cosine ramps
on `[fl1, fl2)` and `(fl3, fl4]`, one on `[fl2, fl3]`. -/
noncomputable def cosWin (freqs : List ℝ) (fl1 fl2 fl3 fl4 : ℝ) : List ℝ :=
  freqs.map (fun f =>
    if fl1 ≤ f ∧ f < fl2 then
      0.5 * (1 - Real.cos (Real.pi * (fl1 - f) / (fl2 - fl1)))
    else if fl2 ≤ f ∧ f ≤ fl3 then 1
    else if fl3 < f ∧ f ≤ fl4 then
      0.5 * (1 + Real.cos (Real.pi * (fl3 - f) / (fl4 - fl3)))
    else 0)

/-- Modelled from the spec: `util.nextpow2` is not under `src/`; section
4.5 step 4 of the spec describes it as the exact next power of two at or
above its argument. -/
def nextpow2 (m : ℕ) : ℕ := 2 ^ Nat.clog 2 m

/-- Modelled from the spec: `obspy.signal.detrend.simple` is not under
`src/`; section 4.5 step 11 of the spec says "subtract the line through the
first and last sample" (cf. the deprecated local `detrend`, invsim.py lines
190-202: `trace -= x1 + arange(ndat) * (x2 - x1) / (ndat - 1)`).  Returns a
new buffer. -/
noncomputable def simpleDetrend (l : List ℂ) : List ℂ :=
  (List.range l.length).map (fun i : ℕ =>
    l.getD i 0 - (l.getD 0 0
      + (i : ℂ) * (l.getD (l.length - 1) 0 - l.getD 0 0) / ((l.length : ℂ) - 1)))

/-- `data -= data.mean()` (invsim.py lines 400-401), in place on the local
data copy, when `zero_mean` is set. -/
noncomputable def zeroMean (h : Heap) (d : Ref) (zero_mean : Bool) : Heap :=
  if zero_mean then h.write d (subMean (h.read d)) else h

/-- The transform length (invsim.py lines 404-415): the next power of two
of `2*ndat` when `nfft_pow2` is set, otherwise `2*(ndat+1)` for odd `ndat`
and `2*ndat` for even `ndat`. -/
def seisSimNfft (ndat : ℕ) (nfft_pow2 : Bool) : ℕ :=
  if nfft_pow2 then nextpow2 (2 * ndat)
  else if ndat % 2 = 1 then 2 * (ndat + 1) else 2 * ndat

/-- The taper stage of `seisSim` (invsim.py lines 402-403):
`data *= cosTaper(ndat, taper_fraction)` is an in-place multiply on the
local `data` copy; a `cosTaper` failure (negative `np.ones` length)
propagates. -/
noncomputable def seisSimTaper (h : Heap) (d : Ref) (ndat : ℕ) (taper : Bool)
    (taper_fraction : ℝ) : Except String Heap :=
  if taper then
    match cosTaper ndat taper_fraction with
    | none => Except.error "ValueError: negative dimensions are not allowed"
    | some w => Except.ok (h.write d
        ((h.read d).zipWith (fun x t => x * t) (w.map Complex.ofReal)))
  else Except.ok h

/-- The removal response of `seisSim` (invsim.py lines 419-427): built from
`paz_remove` by `pazToFreqResp`, then overwritten by the RESP response when
a `seedresp` descriptor is given (the `if seedresp:` branch runs after the
`if paz_remove:` branch and rebinds `freq_response`).  The external
`evalresp` result is a boundary input, modelled as the ready response list
carried by the `seedresp` descriptor. -/
noncomputable def removalResp (h : Heap) (delta : ℝ) (nfft : ℕ)
    (paz_remove : Option PazRef) (seedresp : Option (List ℂ)) :
    Option (List ℂ) :=
  match seedresp with
  | some resp => some resp
  | none =>
    match paz_remove with
    | some pr =>
        some (pazToFreqResp (h.read pr.poles) (h.read pr.zeros) pr.gain delta nfft true)
    | none => none

/-- The `pre_filt` stage of `seisSim` (invsim.py lines 429-441):
`data *= cos_win` in place on the data spectrum when a pre-filter is given
(`cos_win` itself is a temporary). -/
noncomputable def preFilt (h : Heap) (d2 : Ref) (freqs : List ℝ)
    (pre_filt : Option (ℝ × ℝ × ℝ × ℝ)) : Heap :=
  match pre_filt with
  | some (fl1, fl2, fl3, fl4) =>
      h.write d2 ((h.read d2).zipWith (fun x t => x * t)
        ((cosWin freqs fl1 fl2 fl3 fl4).map Complex.ofReal))
  | none => h

/-- `data *= np.conj(freq_response)` (invsim.py line 445), in place on the
data spectrum. -/
noncomputable def deconvMul (h : Heap) (d2 fr : Ref) : Heap :=
  h.write d2 ((h.read d2).zipWith (fun x y => x * y)
    ((h.read fr).map (starRingEnd ℂ)))

/-- `specInv(freq_response, water_level)` followed by the conjugate
multiply (invsim.py lines 444-445): `specInv` mutates the `freq_response`
cell `fr` in place. -/
noncomputable def seisSimInv (h : Heap) (d2 fr : Ref) (water_level : ℝ) :
    Except String Heap :=
  match specInv (h.read fr) water_level with
  | none =>
      Except.error "ValueError: zero-size array to reduction operation maximum"
  | some inv => Except.ok (deconvMul (h.write fr inv) d2 fr)

/-- The deconvolution stage of `seisSim` (invsim.py lines 428-446): when a
removal response exists it is a freshly created local array
(`freq_response`), here allocated as a fresh cell; the optional `pre_filt`
cosine window is multiplied into the data spectrum; `specInv` mutates
`freq_response` in place; finally the data spectrum is multiplied by the
conjugate of the inverted response. -/
noncomputable def seisSimRemoval (h : Heap) (d2 : Ref) (freqs : List ℝ)
    (nfft : ℕ) (delta : ℝ) (paz_remove : Option PazRef)
    (seedresp : Option (List ℂ)) (pre_filt : Option (ℝ × ℝ × ℝ × ℝ))
    (water_level : ℝ) : Except String Heap :=
  match removalResp h delta nfft paz_remove seedresp with
  | none => Except.ok h
  | some resp =>
      seisSimInv (preFilt (h.alloc resp).1 d2 freqs pre_filt) d2
        (h.alloc resp).2 water_level

/-- `data *= np.conj(pazToFreqResp(paz_simulate...))` (invsim.py lines
448-450), in place on the data spectrum; the simulation response array is a
temporary. -/
noncomputable def simMul (h : Heap) (d2 : Ref) (nfft : ℕ) (delta : ℝ)
    (paz_simulate : Option PazRef) : Heap :=
  match paz_simulate with
  | some ps => h.write d2 ((h.read d2).zipWith (fun x y => x * y)
      ((pazToFreqResp (h.read ps.poles) (h.read ps.zeros) ps.gain delta nfft
        true).map (starRingEnd ℂ)))
  | none => h

/-- `data /= paz_remove['sensitivity']` (invsim.py lines 456-457), in place
on the output buffer. -/
noncomputable def removeSens (h : Heap) (d4 : Ref) (paz_remove : Option PazRef)
    (remove_sensitivity : Bool) : Heap :=
  match paz_remove, remove_sensitivity with
  | some pr, true => h.write d4 ((h.read d4).map
      (fun x => x / (pr.sensitivity : ℂ)))
  | _, _ => h

/-- `data *= paz_simulate['sensitivity']` (invsim.py lines 458-459), in
place on the output buffer. -/
noncomputable def simulateSens (h : Heap) (d4 : Ref) (paz_simulate : Option PazRef)
    (simulate_sensitivity : Bool) : Heap :=
  match paz_simulate, simulate_sensitivity with
  | some ps, true => h.write d4 ((h.read d4).map
      (fun x => x * (ps.sensitivity : ℂ)))
  | _, _ => h

/-- The tail of `seisSim` (invsim.py lines 447-460): optional simulation
multiply on the data spectrum, inverse FFT truncated to `ndat` (a new
array), linear detrend (a new array), then the sensitivity scalings in
place.  Returns the final heap and the reference of the returned buffer. -/
noncomputable def seisSimPost (h : Heap) (d2 : Ref) (ndat nfft : ℕ)
    (delta : ℝ) (paz_remove paz_simulate : Option PazRef)
    (remove_sensitivity simulate_sensitivity : Bool) : Heap × Ref :=
  let h1 := simMul h d2 nfft delta paz_simulate
  let ap := h1.alloc ((irfft (h1.read d2)).take ndat)
  let ap2 := ap.1.alloc (simpleDetrend (ap.1.read ap.2))
  (simulateSens (removeSens ap2.1 ap2.2 paz_remove remove_sensitivity) ap2.2
    paz_simulate simulate_sensitivity, ap2.2)

/-- The spectral part of `seisSim` (invsim.py lines 404-460), entered after
detrend/taper with `d` the reference of the local tapered data copy:
`np.fft.rfft` allocates the data spectrum as a new array
(`data = np.fft.rfft(data, n=nfft)`, line 417), then deconvolution
(`seisSimRemoval`) and the pipeline tail (`seisSimPost`) run on it. -/
noncomputable def seisSimSpec (h2 : Heap) (d : Ref) (ndat : ℕ) (delta : ℝ)
    (paz_remove paz_simulate : Option PazRef)
    (remove_sensitivity simulate_sensitivity : Bool) (water_level : ℝ)
    (pre_filt : Option (ℝ × ℝ × ℝ × ℝ)) (seedresp : Option (List ℂ))
    (nfft_pow2 : Bool) : Except String (Heap × Ref) :=
  match seisSimRemoval (h2.alloc (rfft (h2.read d) (seisSimNfft ndat nfft_pow2))).1
      (h2.alloc (rfft (h2.read d) (seisSimNfft ndat nfft_pow2))).2
      (linspace 0 (1 / (delta * 2)) (seisSimNfft ndat nfft_pow2 / 2 + 1))
      (seisSimNfft ndat nfft_pow2) delta paz_remove seedresp pre_filt
      water_level with
  | Except.error e => Except.error e
  | Except.ok h3 =>
      Except.ok (seisSimPost h3
        (h2.alloc (rfft (h2.read d) (seisSimNfft ndat nfft_pow2))).2 ndat
        (seisSimNfft ndat nfft_pow2) delta paz_remove paz_simulate
        remove_sensitivity simulate_sensitivity)

/-- `seisSim` (invsim.py lines 308-460) over the array heap.  The caller
passes the data buffer by reference, and the `paz_remove`/`paz_simulate`
dictionaries carry their pole/zero lists by reference; `seedresp` carries
the external RESP response (boundary).  The initial validation (lines
382-394) raises `TypeError` when none of the three response descriptors is
supplied, before any computation.  The local `data` starts as a fresh copy
(`data.astype("float64")` always copies, line 399) allocated at
`(h.alloc (h.read dataRef)).2`; every subsequent in-place write hits an
array allocated inside the call. -/
noncomputable def seisSim (h : Heap) (dataRef : Ref) (samp_rate : ℝ)
    (paz_remove paz_simulate : Option PazRef)
    (remove_sensitivity simulate_sensitivity : Bool) (water_level : ℝ)
    (zero_mean taper : Bool) (taper_fraction : ℝ)
    (pre_filt : Option (ℝ × ℝ × ℝ × ℝ)) (seedresp : Option (List ℂ))
    (nfft_pow2 : Bool) : Except String (Heap × Ref) :=
  if paz_remove.isNone && paz_simulate.isNone && seedresp.isNone then
    Except.error "Neither inverse nor forward instrument simulation specified."
  else
    match seisSimTaper
        (zeroMean (h.alloc (h.read dataRef)).1 (h.alloc (h.read dataRef)).2
          zero_mean)
        (h.alloc (h.read dataRef)).2 (h.read dataRef).length taper
        taper_fraction with
    | Except.error e => Except.error e
    | Except.ok h2 =>
        seisSimSpec h2 (h.alloc (h.read dataRef)).2 (h.read dataRef).length
          (1 / samp_rate) paz_remove paz_simulate remove_sensitivity
          simulate_sensitivity water_level pre_filt seedresp nfft_pow2

/-- `h2` has at least `n` cells and agrees with `h1` on the first `n`
cells. -/
def Heap.AgreesBelow (n : ℕ) (h1 h2 : Heap) : Prop :=
  n ≤ h2.cells.length ∧ ∀ r, r < n → h2.read r = h1.read r

-- ===== THEOREMS =====

/-- `linspace` returns `num` samples. -/
theorem length_linspace (a b : ℝ) (num : ℕ) : (linspace a b num).length = num := by
  unfold linspace
  split
  · simp_all
  · split
    · simp_all
    · rw [List.length_map, List.length_range]

/-- C1: the claim says the Wood-Anderson pole list is the conjugate pair
`[-6.283 + 4.7124i, -6.283 - 4.7124i]`.  The code (invsim.py line 37) is a
slip: the second pole is written `-6.283 - 4.7124`, the real number
`-11.0154`, because the imaginary unit `j` is missing; the zero, gain and
sensitivity parts of the claim do hold. -/
theorem woodanderson_pole_missing_j :
    WOODANDERSON.poles ≠ [⟨-6.283, 4.7124⟩, ⟨-6.283, -4.7124⟩] ∧
    (WOODANDERSON.poles.getD 1 0).im = 0 ∧
    WOODANDERSON.poles.getD 1 0 = ((-6.283 - 4.7124 : ℝ) : ℂ) ∧
    WOODANDERSON.zeros = [0] ∧ WOODANDERSON.gain = 1 ∧
    WOODANDERSON.sensitivity = 2080 := by
  refine ⟨?_, by simp [WOODANDERSON], ?_, rfl, by norm_num [WOODANDERSON], rfl⟩
  · intro h
    simp only [WOODANDERSON, List.cons.injEq, Complex.mk.injEq] at h
    norm_num at h
  · simp [WOODANDERSON, Complex.ext_iff]

/-- The raised cosine always lies in `[0, 1]`. -/
theorem raisedCos_range (x : ℝ) : 0 ≤ raisedCos x ∧ raisedCos x ≤ 1 := by
  unfold raisedCos
  constructor
  · nlinarith [Real.neg_one_le_cos x]
  · nlinarith [Real.cos_le_one x]

/-- C4 counterexample: `cosTaper 5 (9/10)` does not return a window at all.
The taper length is `int(5 * 0.9 / 2) + 1 = 3`, so the middle segment would
be `np.ones(5 - 6)`, and `np.ones(-1)` raises
`ValueError: negative dimensions are not allowed`. -/
theorem cosTaper_error_cex : cosTaper 5 (9 / 10) = none := by
  have hp : ¬((9 / 10 : ℝ) = 0 ∨ (9 / 10 : ℝ) = 1) := by norm_num
  have hf : ⌊((5 : ℕ) : ℝ) * (9 / 10) / 2⌋₊ = 2 := by
    rw [Nat.floor_eq_iff] <;> norm_num
  have hfrac : cosTaperFrac 5 (9 / 10) = 3 := by
    rw [cosTaperFrac, if_neg hp, hf]
  rw [cosTaper, hfrac]
  norm_num

/-- C4 (amended): whenever `cosTaper npts p` does return (i.e. the flat
middle length `npts - 2*frac` is nonnegative, so `np.ones` does not raise),
the window has exactly `npts` samples, all in `[0, 1]`. -/
theorem cosTaper_length_and_range (npts : ℕ) (p : ℝ) (hp0 : 0 ≤ p) (hp1 : p ≤ 1)
    (l : List ℝ) (h : cosTaper npts p = some l) :
    l.length = npts ∧ ∀ x ∈ l, 0 ≤ x ∧ x ≤ 1 := by
  rw [cosTaper] at h
  split at h
  · rename_i hle
    obtain rfl : _ = l := Option.some.inj h
    constructor
    · simp only [List.length_append, List.length_map, length_linspace,
        List.length_replicate]
      omega
    · intro x hx
      simp only [List.mem_append, List.mem_map, List.mem_replicate] at hx
      rcases hx with (⟨y, _, rfl⟩ | ⟨_, rfl⟩) | ⟨y, _, rfl⟩
      · exact raisedCos_range y
      · norm_num
      · exact raisedCos_range y
  · exact absurd h (by simp)

/-- C4 witness: `cosTaper 1 0` succeeds and satisfies the amended contract. -/
theorem cosTaper_length_and_range_witness :
    (0 : ℝ) ≤ 0 ∧ (0 : ℝ) ≤ 1 ∧ cosTaper 1 0 = some [1] ∧
      ([1] : List ℝ).length = 1 ∧ ∀ x ∈ ([1] : List ℝ), 0 ≤ x ∧ x ≤ 1 := by
  have hsome : cosTaper 1 0 = some [1] := by
    have hfrac : cosTaperFrac 1 0 = 0 := by
      rw [cosTaperFrac, if_pos (Or.inl rfl)]
      norm_num
    rw [cosTaper, hfrac]
    simp [linspace]
  exact ⟨le_rfl, zero_le_one, hsome,
    (cosTaper_length_and_range 1 0 le_rfl zero_le_one [1] hsome).1,
    (cosTaper_length_and_range 1 0 le_rfl zero_le_one [1] hsome).2⟩

/-- Every element's magnitude is bounded by `maxAbs`. -/
theorem le_maxAbs (spec : List ℂ) (x : ℂ) (hx : x ∈ spec) :
    Complex.abs x ≤ maxAbs spec := by
  induction spec with
  | nil => cases hx
  | cons a t ih =>
    simp only [maxAbs, List.map_cons, List.foldr_cons]
    rcases List.mem_cons.mp hx with rfl | h
    · exact le_max_left _ _
    · exact le_trans (ih h) (le_max_right _ _)

/-- C2 counterexample: for the spectrum `[1]` and `wlev = 20` dB, the single
output bin is `1` (the bin is above the water level `0.1`, so it is left
unclamped and inverted to `1/1`), but the claimed lower bound is
`1 / (1 * 10^(-1)) = 10`: the output magnitude is strictly below the claimed
bound, so the claimed `≥` is false. -/
theorem specInv_waterlevel_lb_cex :
    specInv [(1 : ℂ)] 20 = some [1] ∧ (1 : ℂ) ≠ 0 ∧
      Complex.abs 1 < 1 / (maxAbs [(1 : ℂ)] * (10 : ℝ) ^ (-(20 : ℝ) / 20)) := by
  have h10 : (10 : ℝ) ^ (-(20 : ℝ) / 20) = 1 / 10 := by
    rw [show (-(20 : ℝ) / 20) = -1 by norm_num, Real.rpow_neg_one]
    norm_num
  have hm : maxAbs [(1 : ℂ)] = 1 := by
    simp [maxAbs]
  have hw : waterlevel [(1 : ℂ)] 20 = 1 / 10 := by
    rw [waterlevel, hm, h10, one_mul]
  refine ⟨?_, one_ne_zero, ?_⟩
  · have hc : clampBin (1 / 10) (1 : ℂ) = 1 := by
      rw [clampBin, if_neg]
      rw [map_one]
      norm_num
    rw [specInv, hw]
    show some [invBin (clampBin (1 / 10 : ℝ) (1 : ℂ))] = some [(1 : ℂ)]
    rw [hc, invBin, if_pos]
    · norm_num
    · rw [map_one]
      norm_num
  · rw [hm, h10, map_one]
    norm_num

/-- C2 (amended): the clamp-then-invert sequence bounds every nonzero output
bin from ABOVE: `|output| ≤ 1 / (max(|input|) * 10^(-wlev/20))` (the clamp
raises every nonzero magnitude at least to the water level before the
reciprocal is taken, so the reciprocal is at most the reciprocal of the
water level). -/
theorem specInv_output_upper_bound (spec : List ℂ) (wlev : ℝ) (out : List ℂ)
    (h : specInv spec wlev = some out) :
    ∀ z ∈ out, z ≠ 0 →
      Complex.abs z ≤ 1 / (maxAbs spec * (10 : ℝ) ^ (-wlev / 20)) := by
  match spec with
  | [] => exact absurd h (by rw [specInv]; simp)
  | a :: t =>
    rw [specInv, Option.some.injEq] at h
    subst h
    intro z hz hzne
    obtain ⟨x, hx, rfl⟩ := List.mem_map.mp hz
    set swamp := waterlevel (a :: t) wlev with hswamp
    set s := clampBin swamp x with hs
    have habs : 0 < Complex.abs s := by
      by_contra hc
      rw [invBin, if_neg hc] at hzne
      exact hzne rfl
    have hrpow : 0 < (10 : ℝ) ^ (-wlev / 20) :=
      Real.rpow_pos_of_pos (by norm_num) _
    have hkey : 0 < swamp ∧ swamp ≤ Complex.abs s := by
      rw [hs, clampBin]
      split
      · rename_i hcond
        have hxpos : 0 < Complex.abs x := hcond.2
        have hswamp_pos : 0 < swamp := lt_trans hxpos hcond.1
        have : Complex.abs (x * ((swamp : ℂ) / ((Complex.abs x : ℝ) : ℂ)))
            = Complex.abs x * (swamp / Complex.abs x) := by
          rw [map_mul, map_div₀, Complex.abs_ofReal, Complex.abs_ofReal,
            abs_of_pos hswamp_pos, abs_of_pos hxpos]
        rw [this, mul_div_cancel₀ _ (ne_of_gt hxpos)]
        exact ⟨hswamp_pos, le_refl _⟩
      · rename_i hcond
        have hxpos : 0 < Complex.abs x := by
          rw [hs, clampBin, if_neg hcond] at habs
          exact habs
        have hge : swamp ≤ Complex.abs x := by
          by_contra hlt
          exact hcond ⟨lt_of_not_le hlt, hxpos⟩
        have hmax : 0 < maxAbs (a :: t) := lt_of_lt_of_le hxpos (le_maxAbs _ _ hx)
        have hswamp_pos : 0 < swamp := by
          rw [hswamp, waterlevel]
          exact mul_pos hmax hrpow
        exact ⟨hswamp_pos, hge⟩
    have hz1 : invBin s = 1 / s := by
      rw [invBin, if_pos habs]
    rw [hz1, map_div₀, map_one]
    have : 1 / Complex.abs s ≤ 1 / swamp :=
      one_div_le_one_div_of_le hkey.1 hkey.2
    exact le_trans this (le_of_eq (by rw [hswamp, waterlevel]))

/-- C2 witness: for the spectrum `[2]` and `wlev = 0` the single output bin
is `1/2`, which is nonzero and satisfies the amended upper bound
`1/2 ≤ 1 / (2 * 10^0) = 1/2`. -/
theorem specInv_output_upper_bound_witness :
    specInv [(2 : ℂ)] 0 = some [(1 / 2 : ℂ)] ∧ (1 / 2 : ℂ) ∈ [(1 / 2 : ℂ)] ∧
      (1 / 2 : ℂ) ≠ 0 ∧
      Complex.abs (1 / 2 : ℂ) ≤ 1 / (maxAbs [(2 : ℂ)] * (10 : ℝ) ^ (-(0 : ℝ) / 20)) := by
  have h10 : (10 : ℝ) ^ (-(0 : ℝ) / 20) = 1 := by
    rw [show (-(0 : ℝ) / 20) = 0 by norm_num, Real.rpow_zero]
  have hm : maxAbs [(2 : ℂ)] = 2 := by
    have : Complex.abs 2 = 2 := by
      rw [show (2 : ℂ) = ((2 : ℝ) : ℂ) by norm_num, Complex.abs_ofReal]
      norm_num
    simp [maxAbs, this]
  have hw : waterlevel [(2 : ℂ)] 0 = 2 := by
    rw [waterlevel, hm, h10, mul_one]
  have habs2 : Complex.abs 2 = 2 := by
    rw [show (2 : ℂ) = ((2 : ℝ) : ℂ) by norm_num, Complex.abs_ofReal]
    norm_num
  have hsome : specInv [(2 : ℂ)] 0 = some [(1 / 2 : ℂ)] := by
    rw [specInv, hw]
    have hc : clampBin 2 (2 : ℂ) = 2 := by
      rw [clampBin, if_neg]
      rw [habs2]
      norm_num
    simp [hc, invBin, habs2]
  refine ⟨hsome, by simp, by norm_num, ?_⟩
  exact specInv_output_upper_bound [(2 : ℂ)] 0 [(1 / 2 : ℂ)] hsome (1 / 2 : ℂ)
    (by simp) (by norm_num)

/-- C6 counterexample: an empty spectrum produces no output at all (the
first step of `specInv`, `np.abs(spec).max()` inside `waterlevel`, raises
`ValueError` on a zero-size array), so "the output has the same length as
the input" fails for the empty spectrum. -/
theorem specInv_empty_cex : specInv ([] : List ℂ) 0 = none := rfl

/-- C6 (amended): whenever `specInv` returns (i.e. the spectrum is
nonempty), the output has the same length as the input and every input bin
of exactly zero magnitude is mapped to exactly `0+0j`. -/
theorem specInv_zero_bins_length (spec : List ℂ) (wlev : ℝ) (out : List ℂ)
    (h : specInv spec wlev = some out) :
    out.length = spec.length ∧
      ∀ i, i < spec.length → Complex.abs (spec.getD i 0) = 0 → out.getD i 0 = 0 := by
  match spec with
  | [] => exact absurd h (by rw [specInv]; simp)
  | a :: t =>
    rw [specInv, Option.some.injEq] at h
    subst h
    constructor
    · rw [List.length_map]
    · intro i hi habs
      have hi' : i < (List.map (fun z => invBin (clampBin (waterlevel (a :: t) wlev) z))
          (a :: t)).length := by
        rw [List.length_map]
        exact hi
      rw [List.getD_eq_getElem _ _ hi'] at *
      rw [List.getD_eq_getElem _ _ hi] at habs
      rw [List.getElem_map]
      have hzero : (a :: t)[i] = 0 := by
        exact Complex.abs.eq_zero.mp habs
      rw [hzero, clampBin, if_neg (by simp), invBin, if_neg (by simp)]

/-- C6 witness: the spectrum `[0, 3]` with `wlev = 0` maps to `[0, 1/3]`:
the zero bin stays exactly `0`, and the length is preserved. -/
theorem specInv_zero_bins_length_witness :
    specInv [(0 : ℂ), 3] 0 = some [0, (3 : ℂ)⁻¹] ∧
      ([0, (3 : ℂ)⁻¹] : List ℂ).length = ([(0 : ℂ), 3] : List ℂ).length ∧
      ∀ i, i < ([(0 : ℂ), 3] : List ℂ).length →
        Complex.abs (([(0 : ℂ), 3] : List ℂ).getD i 0) = 0 →
        ([0, (3 : ℂ)⁻¹] : List ℂ).getD i 0 = 0 := by
  have habs3 : Complex.abs 3 = 3 := by
    rw [show (3 : ℂ) = ((3 : ℝ) : ℂ) by norm_num, Complex.abs_ofReal]
    norm_num
  have hm : maxAbs [(0 : ℂ), 3] = 3 := by
    simp [maxAbs, habs3]
  have hw : waterlevel [(0 : ℂ), 3] 0 = 3 := by
    rw [waterlevel, hm, show (-(0 : ℝ) / 20) = 0 by norm_num, Real.rpow_zero, mul_one]
  have hsome : specInv [(0 : ℂ), 3] 0 = some [0, (3 : ℂ)⁻¹] := by
    rw [specInv, hw]
    have hc0 : clampBin 3 (0 : ℂ) = 0 := by
      rw [clampBin, if_neg (by simp)]
    have hc3 : clampBin 3 (3 : ℂ) = 3 := by
      rw [clampBin, if_neg]
      rw [habs3]
      norm_num
    simp [hc0, hc3, invBin, habs3, one_div]
  exact ⟨hsome, (specInv_zero_bins_length _ _ _ hsome).1,
    (specInv_zero_bins_length _ _ _ hsome).2⟩

/-- Horner evaluation with a nonzero accumulator. -/
theorem polyval_foldl_acc (t : List ℂ) (x : ℂ) :
    ∀ acc : ℂ, t.foldl (fun y c => y * x + c) acc = acc * x ^ t.length + polyval t x := by
  induction t with
  | nil =>
    intro acc
    simp [polyval]
  | cons c t ih =>
    intro acc
    rw [List.foldl_cons, ih (acc * x + c)]
    conv_rhs => rw [polyval, List.foldl_cons, ih (0 * x + c)]
    rw [List.length_cons, pow_succ]
    ring

/-- Peeling the leading coefficient off a Horner evaluation. -/
theorem polyval_cons (y : ℂ) (l : List ℂ) (x : ℂ) :
    polyval (y :: l) x = y * x ^ l.length + polyval l x := by
  conv_lhs => rw [polyval, List.foldl_cons, polyval_foldl_acc]
  ring

/-- One step of `np.poly`'s convolution multiplies the evaluated polynomial
by the linear factor, with a correction term in the carried-in previous
coefficient. -/
theorem polyval_zip_lin (r x : ℂ) :
    ∀ (a : List ℂ) (prev : ℂ),
      polyval ((a ++ [0]).zipWith (fun c d => c - r * d) (prev :: a)) x
        = polyval a x * (x - r) - r * prev * x ^ a.length := by
  intro a
  induction a with
  | nil =>
    intro prev
    simp [polyval]
  | cons c t ih =>
    intro prev
    rw [List.cons_append, List.zipWith_cons_cons, polyval_cons, ih c]
    rw [polyval_cons, List.length_cons, pow_succ]
    have hlen : ((t ++ [0]).zipWith (fun c d => c - r * d) (c :: t)).length = t.length + 1 := by
      rw [List.length_zipWith, List.length_append, List.length_cons]
      simp
    rw [hlen, pow_succ]
    ring

/-- `np.polyval (np.poly roots) x` is the product of the linear factors. -/
theorem polyval_poly (roots : List ℂ) (x : ℂ) :
    polyval (poly roots) x = (roots.map (fun r => x - r)).prod := by
  suffices h : ∀ (roots : List ℂ) (acc : List ℂ),
      polyval (roots.foldl polyMulLin acc) x
        = polyval acc x * (roots.map (fun r => x - r)).prod by
    rw [poly, h]
    simp [polyval]
  intro roots
  induction roots with
  | nil =>
    intro acc
    simp
  | cons r t ih =>
    intro acc
    rw [List.foldl_cons, ih (polyMulLin acc r), List.map_cons, List.prod_cons]
    rw [polyMulLin, polyval_zip_lin]
    ring

/-- Scaling every coefficient scales the Horner evaluation. -/
theorem polyval_smul (g : ℂ) (p : List ℂ) (x : ℂ) :
    polyval (p.map (fun c => g * c)) x = g * polyval p x := by
  induction p with
  | nil => simp [polyval]
  | cons c t ih =>
    rw [List.map_cons, polyval_cons, polyval_cons, ih, List.length_map]
    ring

/-- C7: with the default `pitsa=True` convention, `pazToFreqResp` returns
exactly the complex conjugate of the raw analog response
`H(s) = gain * prod (s - zero) / prod (s - pole)` at `s = j*2*pi*f`, on the
`nfft/2 + 1` frequencies linearly spaced from `0` to Nyquist
`1/(2*t_samp)`. -/
theorem pazToFreqResp_is_conj_analog (poles zeros : List ℂ) (scale_fac t_samp : ℝ)
    (nfft : ℕ) (hnfft : Even nfft) :
    pazToFreqResp poles zeros scale_fac t_samp nfft true
      = (linspace 0 (1 / (2 * t_samp)) (nfft / 2 + 1)).map
          (fun f => starRingEnd ℂ (analogRespSpec poles zeros scale_fac
            (Complex.I * (2 * Real.pi * f)))) := by
  rw [pazToFreqResp]
  simp only [if_true, List.map_map]
  rw [show (1 / (t_samp * 2)) = 1 / (2 * t_samp) by ring_nf]
  apply List.map_congr_left
  intro f _
  simp only [Function.comp_apply]
  congr 1
  rw [analogRespSpec, polyval_smul, polyval_poly, polyval_poly]

/-- C7 witness: the trivial instrument (no poles, no zeros, unit gain) at
`t_samp = 1`, `nfft = 2`. -/
theorem pazToFreqResp_is_conj_analog_witness :
    Even 2 ∧ pazToFreqResp [] [] 1 1 2 true
      = (linspace 0 (1 / (2 * 1)) (2 / 2 + 1)).map
          (fun f => starRingEnd ℂ (analogRespSpec [] [] 1 (Complex.I * (2 * Real.pi * f)))) :=
  ⟨by decide, pazToFreqResp_is_conj_analog [] [] 1 1 2 (by decide)⟩

/-- At the dominant frequency of a 1-second timespan, `jw` differs from
the first Wood-Anderson pole (their real parts differ), so the complex
division by `jw - pole` does not raise. -/
theorem wa_pole1_ne :
    ((⟨0, 2 * Real.pi * (1 / (2 * 1))⟩ : ℂ) - ⟨-6.283, 4.7124⟩) ≠ 0 := by
  intro hcon
  have h2 := congrArg Complex.re hcon
  have h3 : (0 : ℝ) - (-6.283) = 0 := h2
  norm_num at h3

/-- Likewise for the second (typo'd, purely real) Wood-Anderson pole. -/
theorem wa_pole2_ne :
    ((⟨0, 2 * Real.pi * (1 / (2 * 1))⟩ : ℂ) - ⟨-6.283 - 4.7124, 0⟩) ≠ 0 := by
  intro hcon
  have h2 := congrArg Complex.re hcon
  have h3 : (0 : ℝ) - (-6.283 - 4.7124) = 0 := h2
  norm_num at h3

/-- The numerator `1 * (jw - 0)` of the Wood-Anderson response factor is
nonzero at the dominant frequency of a 1-second timespan. -/
theorem wa_jw_ne :
    ((1 : ℂ) * ((⟨0, 2 * Real.pi * (1 / (2 * 1))⟩ : ℂ) - 0)) ≠ 0 := by
  rw [one_mul, sub_zero]
  intro hcon
  have h2 := congrArg Complex.im hcon
  have h3 : 2 * Real.pi * (1 / (2 * 1)) = 0 := h2
  rw [show (2 : ℝ) * Real.pi * (1 / (2 * 1)) = Real.pi from by ring] at h3
  exact Real.pi_ne_zero h3

/-- The Wood-Anderson response amplitude at the dominant frequency of a
1-second timespan evaluates without error. -/
theorem wa_resp_eval : paz2AmpValueOfFreqResp WOODANDERSON (1 / (2 * 1))
    = some (Complex.abs ((1 : ℂ) * ((⟨0, 2 * Real.pi * (1 / (2 * 1))⟩ : ℂ) - 0)
        / ((⟨0, 2 * Real.pi * (1 / (2 * 1))⟩ : ℂ) - ⟨-6.283, 4.7124⟩)
        / ((⟨0, 2 * Real.pi * (1 / (2 * 1))⟩ : ℂ) - ⟨-6.283 - 4.7124, 0⟩))
      * WOODANDERSON.gain) := by
  rw [paz2AmpValueOfFreqResp]
  rw [show WOODANDERSON.poles = [⟨-6.283, 4.7124⟩, ⟨-6.283 - 4.7124, 0⟩] from rfl,
    show WOODANDERSON.zeros = [(0 : ℂ)] from rfl]
  simp only [List.foldl_cons, List.foldl_nil, Option.some_bind]
  rw [if_neg wa_pole1_ne]
  simp only [Option.some_bind]
  rw [if_neg wa_pole2_ne]
  simp only [Option.map_some']

/-- The evaluated response factor is nonzero. -/
theorem wa_fac_ne : ((1 : ℂ) * ((⟨0, 2 * Real.pi * (1 / (2 * 1))⟩ : ℂ) - 0)
    / ((⟨0, 2 * Real.pi * (1 / (2 * 1))⟩ : ℂ) - ⟨-6.283, 4.7124⟩)
    / ((⟨0, 2 * Real.pi * (1 / (2 * 1))⟩ : ℂ) - ⟨-6.283 - 4.7124, 0⟩)) ≠ 0 :=
  div_ne_zero (div_ne_zero wa_jw_ne wa_pole1_ne) wa_pole2_ne

/-- The response amplitude times the sensitivity is nonzero, so the
`wa_ampl /= ...` division does not raise either. -/
theorem wa_prod_ne :
    ¬ (Complex.abs ((1 : ℂ) * ((⟨0, 2 * Real.pi * (1 / (2 * 1))⟩ : ℂ) - 0)
        / ((⟨0, 2 * Real.pi * (1 / (2 * 1))⟩ : ℂ) - ⟨-6.283, 4.7124⟩)
        / ((⟨0, 2 * Real.pi * (1 / (2 * 1))⟩ : ℂ) - ⟨-6.283 - 4.7124, 0⟩))
      * WOODANDERSON.gain * WOODANDERSON.sensitivity = 0) := by
  rw [show WOODANDERSON.gain = 1.0 from rfl,
    show WOODANDERSON.sensitivity = 2080 from rfl]
  exact mul_ne_zero (mul_ne_zero (Complex.abs.ne_zero wa_fac_ne) (by norm_num))
    (by norm_num)

/-- A Wood-Anderson reading with amplitude 1 and timespan 1 second
converts without error: no division in the conversion raises. -/
theorem wa_reading_isSome :
    (estimateWoodAndersonAmplitude WOODANDERSON 1 1).isSome = true := by
  rw [estimateWoodAndersonAmplitude, if_neg (by norm_num : ¬(1 : ℝ) = 0),
    wa_resp_eval]
  simp only [Option.some_bind]
  rw [if_neg wa_prod_ne]
  simp only [Option.map_some']
  rfl

/-- C3 counterexample: mismatched nonempty list inputs do NOT fail —
`zip` silently truncates to the shortest list and a magnitude is returned.
Here `paz` has 1 element, `amplitude` has 2 and `timespan` has 1, and the
single zipped reading converts without error. -/
theorem estimateMagnitude_mismatch_cex :
    (estimateMagnitude [WOODANDERSON] [1, 2] [1] 1).isSome = true := by
  obtain ⟨v, hv⟩ := Option.isSome_iff_exists.mp wa_reading_isSome
  rw [estimateMagnitude]
  rw [show ([WOODANDERSON].zip ([(1 : ℝ), 2].zip [(1 : ℝ)]))
      = [(WOODANDERSON, ((1 : ℝ), (1 : ℝ)))] from rfl]
  simp only [List.foldl_cons, List.foldl_nil, Option.some_bind]
  rw [hv]
  simp

/-- C3 (amended): `estimateMagnitude` with list inputs fails whenever one
of the three lists is empty — the zip is then empty, the loop body never
runs, and `wa_ampl_mean /= count` raises `ZeroDivisionError` during the
numeric phase, not as an upfront validation.  Mismatched nonempty lists are
not by themselves an error: `zip` truncates to the shortest list and a
magnitude is returned whenever every zipped reading converts without error
(see the counterexample); a reading can still fail on its own (zero
timespan, zero response-times-sensitivity product, `jw` equal to a pole). -/
theorem estimateMagnitude_empty_none (paz : List PAZ)
    (amplitude timespan : List ℝ) (h_dist : ℝ)
    (h : paz = [] ∨ amplitude = [] ∨ timespan = []) :
    estimateMagnitude paz amplitude timespan h_dist = none := by
  have hzip : paz.zip (amplitude.zip timespan) = [] := by
    rcases h with rfl | rfl | rfl <;> simp
  rw [estimateMagnitude, hzip]
  simp

/-- C3 witness: empty `paz` list with nonempty amplitude/timespan lists. -/
theorem estimateMagnitude_empty_none_witness :
    (([] : List PAZ) = [] ∨ ([(1 : ℝ)] : List ℝ) = [] ∨ ([(1 : ℝ)] : List ℝ) = []) ∧
      estimateMagnitude [] [(1 : ℝ)] [(1 : ℝ)] 1 = none :=
  ⟨Or.inl rfl, estimateMagnitude_empty_none [] [1] [1] 1 (Or.inl rfl)⟩

/-- C9 counterexample: when the external `evresp` call fails, the exception
propagates from line 172-175 before `os.remove(tempfile)` (line 182) is ever
reached, and the temporary file is left behind: the resource is NOT released
on the failure path. -/
theorem evalresp_tempfile_leak_cex :
    (evalrespTemp (Except.error "evresp failed") true).1 = true := rfl

/-- C9 (amended): the temporary file is removed exactly on the path where
the external `evresp` call returns normally and `os.remove` itself succeeds
(its failure is swallowed by `except: pass`); when the external call raises,
no removal is attempted and the temporary file is leaked. -/
theorem evalresp_tempfile_removed_iff (ext : Except String (List ℂ)) (removeOk : Bool) :
    (evalrespTemp ext removeOk).1 = false ↔
      removeOk = true ∧ ∃ rvec, ext = Except.ok rvec := by
  cases ext <;> cases removeOk <;> simp [evalrespTemp]

/-- Reversal mirrors `getD` indices. -/
theorem getD_reverse (l : List ℝ) (i : ℕ) (h : i < l.length) :
    l.reverse.getD i 0 = l.getD (l.length - 1 - i) 0 := by
  rw [List.getD_eq_getElem _ _ (by simpa using h),
      List.getD_eq_getElem _ _ (by omega), List.getElem_reverse]

/-- With at least two nodes, `linspace` is the explicit affine map over
`range`. -/
theorem linspace_eq_map (a b : ℝ) (num : ℕ) (hnum : 2 ≤ num) :
    linspace a b num
      = (List.range num).map (fun i : ℕ => a + (i : ℝ) * (b - a) / ((num : ℝ) - 1)) := by
  unfold linspace
  rw [if_neg (by omega), if_neg (by omega)]

/-- The rising raised-cosine ramp of `cosTaper` read backwards is the
falling ramp — provided the ramp does not consist of a single node
(`np.linspace` ignores the endpoint when it generates one node, which
breaks the mirror symmetry for a one-node ramp). -/
theorem taper_ramp_reverse (q : ℕ) (hq : q ≠ 1) :
    ((linspace Real.pi (2 * Real.pi) q).map raisedCos).reverse
      = (linspace 0 Real.pi q).map raisedCos := by
  rcases q with _ | q
  · rfl
  rcases q with _ | q
  · exact absurd rfl hq
  rw [linspace_eq_map _ _ _ (by omega), linspace_eq_map _ _ _ (by omega),
    List.map_map, List.map_map]
  apply List.ext_getElem
  · simp
  intro i h1 h2
  simp only [List.length_map, List.length_range] at h1 h2
  rw [List.getElem_reverse]
  simp only [List.length_map, List.length_range]
  rw [List.getElem_map, List.getElem_map, List.getElem_range, List.getElem_range]
  simp only [Function.comp_apply]
  unfold raisedCos
  congr 1
  congr 1
  have hcast : ((q + 2 - 1 - i : ℕ) : ℝ) = (q : ℝ) + 1 - i := by
    have h3 : (q + 2 - 1 - i : ℕ) = q + 1 - i := by omega
    rw [h3]
    push_cast [Nat.cast_sub (by omega : i ≤ q + 1)]
    ring
  have hden : ((q + 2 : ℕ) : ℝ) - 1 = (q : ℝ) + 1 := by push_cast; ring
  have hne : ((q : ℝ) + 1) ≠ 0 := by positivity
  rw [hcast, hden]
  have harg : Real.pi + ((q : ℝ) + 1 - i) * (2 * Real.pi - Real.pi) / ((q : ℝ) + 1)
      = 2 * Real.pi - (0 + (i : ℝ) * (Real.pi - 0) / ((q : ℝ) + 1)) := by
    field_simp
    ring
  rw [harg, Real.cos_sub]
  simp

/-- C10 counterexample: for `n = 2`, `fraction = 1.0` the window is
`[0, 1]`: both ramps have a single node, `np.linspace` then ignores the
endpoint, so the rising ramp is `[raisedCos pi] = [0]` while the falling
ramp is `[raisedCos 0] = [1]`, and `w[0] = 0 /= 1 = w[2-1-0]`: the window is
not symmetric. -/
theorem cosTaper_full_asym_cex :
    cosTaper 2 1 = some [0, 1] ∧
      ¬ (([0, 1] : List ℝ).getD 0 0 = ([0, 1] : List ℝ).getD (2 - 1 - 0) 0) := by
  constructor
  · have hfrac : cosTaperFrac 2 1 = 1 := by
      rw [cosTaperFrac, if_pos (Or.inr rfl)]
      rw [show ((2 : ℕ) : ℝ) * 1 / 2 = 1 by norm_num]
      exact Nat.floor_one
    rw [cosTaper, hfrac, if_pos (by norm_num)]
    rw [show (2 - 2 * 1 : ℕ) = 0 by rfl]
    rw [show linspace Real.pi (2 * Real.pi) 1 = [Real.pi] from by unfold linspace; norm_num]
    rw [show linspace 0 Real.pi 1 = [(0 : ℝ)] from by unfold linspace; norm_num]
    simp [raisedCos, Real.cos_pi]
    norm_num
  · norm_num

/-- C10 (amended): for `fraction = 1.0` and every `n` with `n ≤ 1` or
`n ≥ 4`, the returned window is symmetric (`w[i] = w[n-1-i]`) and its
central one or two samples equal exactly `1`; the cases `n = 2, 3` are the
only exceptions (see the counterexample). -/
theorem cosTaper_full_symmetric (n : ℕ) (hn : n ≤ 1 ∨ 4 ≤ n) (l : List ℝ)
    (h : cosTaper n 1 = some l) :
    (∀ i, i < n → l.getD i 0 = l.getD (n - 1 - i) 0) ∧
      (∀ i, i < n → n - 2 ≤ 2 * i → 2 * i ≤ n → l.getD i 0 = 1) := by
  have hfrac : cosTaperFrac n 1 = n / 2 := by
    rw [cosTaperFrac, if_pos (Or.inr rfl)]
    rw [show ((n : ℕ) : ℝ) * 1 / 2 = (n : ℝ) / ((2 : ℕ) : ℝ) by push_cast; ring]
    rw [Nat.floor_div_nat, Nat.floor_natCast]
  rw [cosTaper, hfrac, if_pos (by omega)] at h
  obtain rfl : _ = l := Option.some.inj h
  set q := n / 2 with hq
  set A := (linspace Real.pi (2 * Real.pi) q).map raisedCos with hA
  set B := List.replicate (n - 2 * q) (1 : ℝ) with hB
  set C := (linspace 0 Real.pi q).map raisedCos with hC
  have hqne : q ≠ 1 := by omega
  have hAlen : A.length = q := by rw [hA, List.length_map, length_linspace]
  have hBlen : B.length = n - 2 * q := by rw [hB, List.length_replicate]
  have hClen : C.length = q := by rw [hC, List.length_map, length_linspace]
  have hlen : (A ++ B ++ C).length = n := by
    simp only [List.length_append, hAlen, hBlen, hClen]
    omega
  have hrevA : A.reverse = C := taper_ramp_reverse q hqne
  have hrevC : C.reverse = A := by rw [← hrevA, List.reverse_reverse]
  have hrev : (A ++ B ++ C).reverse = A ++ B ++ C := by
    rw [List.reverse_append, List.reverse_append, hrevC, hrevA, hB,
      List.reverse_replicate, List.append_assoc]
  constructor
  · intro i hi
    have h1 : i < (A ++ B ++ C).length := by rw [hlen]; exact hi
    conv_lhs => rw [← hrev]
    rw [getD_reverse _ _ h1, hlen]
  · intro i hi hc1 hc2
    rcases Nat.lt_or_ge i q with hiq | hiq
    · -- a sample inside the rising ramp: only `i = q - 1` with `n = 2*q`
      have hn4 : 4 ≤ n := by omega
      have hq2 : 2 ≤ q := by omega
      obtain ⟨rfl, hneq⟩ : i = q - 1 ∧ n = 2 * q := by omega
      rw [List.append_assoc, List.getD_append _ _ _ _ (by rw [hAlen]; omega)]
      rw [hA, linspace_eq_map _ _ _ hq2, List.map_map]
      rw [List.getD_eq_getElem _ _ (by simp; omega), List.getElem_map, List.getElem_range]
      simp only [Function.comp_apply]
      have hcast : ((q - 1 : ℕ) : ℝ) = (q : ℝ) - 1 := by
        push_cast [Nat.cast_sub (by omega : 1 ≤ q)]
        ring
      have hne : (q : ℝ) - 1 ≠ 0 := by
        have h2 : (2 : ℝ) ≤ (q : ℝ) := by exact_mod_cast hq2
        linarith
      rw [hcast]
      have harg : Real.pi + ((q : ℝ) - 1) * (2 * Real.pi - Real.pi) / ((q : ℝ) - 1)
          = 2 * Real.pi := by
        field_simp
      rw [harg, raisedCos, Real.cos_two_pi]
      norm_num
    · -- the middle sample (odd `n`) or the first node of the falling ramp
      obtain rfl : i = q := by omega
      rw [List.append_assoc, List.getD_append_right _ _ _ _ (by rw [hAlen])]
      rw [hAlen, Nat.sub_self]
      have hmid : n - 2 * q = 0 ∨ n - 2 * q = 1 := by omega
      rcases hmid with hmid | hmid
      · have hB0 : B = [] := by rw [hB, hmid, List.replicate_zero]
        have hq2 : 2 ≤ q := by omega
        rw [hB0, List.nil_append]
        rw [hC, linspace_eq_map _ _ _ hq2, List.map_map]
        rw [List.getD_eq_getElem _ _ (by simp; omega), List.getElem_map, List.getElem_range]
        simp only [Function.comp_apply, Nat.cast_zero]
        rw [show (0 : ℝ) + 0 * (Real.pi - 0) / ((q : ℝ) - 1) = 0 by ring]
        rw [raisedCos, Real.cos_zero]
        norm_num
      · rw [List.getD_append _ _ _ _ (by rw [hBlen, hmid]; omega)]
        rw [hB, hmid]
        simp

/-- C10 witness: for `n = 5`, `fraction = 1.0` the window is
`[0, 1, 1, 1, 0]`; it is symmetric and its central sample (index 2) is 1. -/
theorem cosTaper_full_symmetric_witness :
    ((5 : ℕ) ≤ 1 ∨ 4 ≤ 5) ∧ cosTaper 5 1 = some [0, 1, 1, 1, 0] ∧
      (∀ i, i < 5 → ([0, 1, 1, 1, 0] : List ℝ).getD i 0
        = ([0, 1, 1, 1, 0] : List ℝ).getD (5 - 1 - i) 0) ∧
      (∀ i, i < 5 → 5 - 2 ≤ 2 * i → 2 * i ≤ 5 →
        ([0, 1, 1, 1, 0] : List ℝ).getD i 0 = 1) := by
  have hfrac : cosTaperFrac 5 1 = 2 := by
    rw [cosTaperFrac, if_pos (Or.inr rfl)]
    rw [show ((5 : ℕ) : ℝ) * 1 / 2 = (5 : ℝ) / ((2 : ℕ) : ℝ) by push_cast; ring]
    rw [Nat.floor_div_nat]
    norm_num
  have hsome : cosTaper 5 1 = some [0, 1, 1, 1, 0] := by
    rw [cosTaper, hfrac, if_pos (by norm_num)]
    rw [show (5 - 2 * 2 : ℕ) = 1 by rfl]
    rw [linspace_eq_map _ _ _ (by norm_num), linspace_eq_map _ _ _ (by norm_num)]
    rw [show List.range 2 = [0, 1] from rfl]
    simp only [List.map_cons, List.map_nil, Nat.cast_zero, Nat.cast_one,
      List.replicate_succ, List.replicate_zero]
    rw [show Real.pi + (0 : ℝ) * (2 * Real.pi - Real.pi) / (((2 : ℕ) : ℝ) - 1) = Real.pi
        by push_cast; ring]
    rw [show Real.pi + (1 : ℝ) * (2 * Real.pi - Real.pi) / (((2 : ℕ) : ℝ) - 1) = 2 * Real.pi
        by push_cast; ring]
    rw [show (0 : ℝ) + (0 : ℝ) * (Real.pi - 0) / (((2 : ℕ) : ℝ) - 1) = 0 by push_cast; ring]
    rw [show (0 : ℝ) + (1 : ℝ) * (Real.pi - 0) / (((2 : ℕ) : ℝ) - 1) = Real.pi
        by push_cast; ring]
    simp only [raisedCos, Real.cos_pi, Real.cos_two_pi, Real.cos_zero]
    norm_num
  exact ⟨Or.inr (by norm_num), hsome,
    (cosTaper_full_symmetric 5 (Or.inr (by norm_num)) _ hsome).1,
    (cosTaper_full_symmetric 5 (Or.inr (by norm_num)) _ hsome).2⟩

/-- `AgreesBelow` is reflexive on sufficiently long heaps. -/
theorem Heap.agreesBelow_refl (n : ℕ) (h : Heap) (hn : n ≤ h.cells.length) :
    Heap.AgreesBelow n h h :=
  ⟨hn, fun _ _ => rfl⟩

/-- `AgreesBelow` composes. -/
theorem Heap.agreesBelow_trans {n : ℕ} {h1 h2 h3 : Heap}
    (a : Heap.AgreesBelow n h1 h2) (b : Heap.AgreesBelow n h2 h3) :
    Heap.AgreesBelow n h1 h3 :=
  ⟨b.1, fun r hr => (b.2 r hr).trans (a.2 r hr)⟩

/-- Allocation does not disturb existing cells. -/
theorem Heap.agreesBelow_alloc (n : ℕ) (h : Heap) (v : List ℂ)
    (hn : n ≤ h.cells.length) : Heap.AgreesBelow n h (h.alloc v).1 := by
  constructor
  · simp only [Heap.alloc, List.length_append, List.length_cons, List.length_nil]
    omega
  · intro r hr
    simp only [Heap.alloc, Heap.read]
    rw [List.getD_append _ _ _ _ (by omega)]

/-- Writing at or beyond index `n` does not disturb the first `n` cells. -/
theorem Heap.agreesBelow_write (n : ℕ) (h : Heap) (r0 : Ref) (v : List ℂ)
    (hn : n ≤ h.cells.length) (hr0 : n ≤ r0) :
    Heap.AgreesBelow n h (h.write r0 v) := by
  constructor
  · simp only [Heap.write, List.length_set]
    exact hn
  · intro r hr
    simp only [Heap.write, Heap.read]
    rw [List.getD_eq_getElem?_getD, List.getElem?_set_ne (by omega),
      ← List.getD_eq_getElem?_getD]

/-- The zero-mean stage only writes the local data copy. -/
theorem zeroMean_frame (n : ℕ) (h : Heap) (d : Ref) (zm : Bool)
    (hn : n ≤ h.cells.length) (hd : n ≤ d) :
    Heap.AgreesBelow n h (zeroMean h d zm) := by
  rw [zeroMean]
  split
  · exact Heap.agreesBelow_write n h d _ hn hd
  · exact Heap.agreesBelow_refl n h hn

/-- The taper stage only writes the local data copy. -/
theorem seisSimTaper_frame (n : ℕ) (h : Heap) (d : Ref) (ndat : ℕ) (tp : Bool)
    (tf : ℝ) (h' : Heap) (hok : seisSimTaper h d ndat tp tf = Except.ok h')
    (hn : n ≤ h.cells.length) (hd : n ≤ d) : Heap.AgreesBelow n h h' := by
  rw [seisSimTaper] at hok
  split at hok
  · split at hok
    · exact absurd hok (by simp)
    · obtain rfl : _ = h' := Except.ok.inj hok
      exact Heap.agreesBelow_write n h d _ hn hd
  · obtain rfl : _ = h' := Except.ok.inj hok
    exact Heap.agreesBelow_refl n h hn

/-- The pre-filter stage only writes the data spectrum. -/
theorem preFilt_frame (n : ℕ) (h : Heap) (d2 : Ref) (freqs : List ℝ)
    (pf : Option (ℝ × ℝ × ℝ × ℝ)) (hn : n ≤ h.cells.length) (hd2 : n ≤ d2) :
    Heap.AgreesBelow n h (preFilt h d2 freqs pf) := by
  rcases pf with _ | ⟨fl1, fl2, fl3, fl4⟩
  · exact Heap.agreesBelow_refl n h hn
  · exact Heap.agreesBelow_write n h d2 _ hn hd2

/-- The water-level inversion stage only writes the (fresh) response cell
and the data spectrum. -/
theorem seisSimInv_frame (n : ℕ) (h : Heap) (d2 fr : Ref) (wl : ℝ) (h' : Heap)
    (hok : seisSimInv h d2 fr wl = Except.ok h')
    (hn : n ≤ h.cells.length) (hd2 : n ≤ d2) (hfr : n ≤ fr) :
    Heap.AgreesBelow n h h' := by
  rw [seisSimInv] at hok
  split at hok
  · exact absurd hok (by simp)
  · rename_i inv heq
    obtain rfl : _ = h' := Except.ok.inj hok
    have s1 := Heap.agreesBelow_write n h fr inv hn hfr
    exact Heap.agreesBelow_trans s1
      (Heap.agreesBelow_write n _ d2 _ s1.1 hd2)

/-- The whole deconvolution stage does not disturb caller-owned cells. -/
theorem seisSimRemoval_frame (n : ℕ) (h : Heap) (d2 : Ref) (freqs : List ℝ)
    (nfft : ℕ) (delta : ℝ) (pr : Option PazRef) (sr : Option (List ℂ))
    (pf : Option (ℝ × ℝ × ℝ × ℝ)) (wl : ℝ) (h' : Heap)
    (hok : seisSimRemoval h d2 freqs nfft delta pr sr pf wl = Except.ok h')
    (hn : n ≤ h.cells.length) (hd2 : n ≤ d2) : Heap.AgreesBelow n h h' := by
  rw [seisSimRemoval] at hok
  split at hok
  · obtain rfl : _ = h' := Except.ok.inj hok
    exact Heap.agreesBelow_refl n h hn
  · rename_i resp heq
    have s1 : Heap.AgreesBelow n h (h.alloc resp).1 :=
      Heap.agreesBelow_alloc n h resp hn
    have s2 : Heap.AgreesBelow n (h.alloc resp).1
        (preFilt (h.alloc resp).1 d2 freqs pf) :=
      preFilt_frame n _ d2 freqs pf s1.1 hd2
    have s3 : Heap.AgreesBelow n (preFilt (h.alloc resp).1 d2 freqs pf) h' :=
      seisSimInv_frame n _ d2 (h.alloc resp).2 wl h' hok s2.1 hd2 hn
    exact Heap.agreesBelow_trans s1 (Heap.agreesBelow_trans s2 s3)

/-- The simulation multiply only writes the data spectrum. -/
theorem simMul_frame (n : ℕ) (h : Heap) (d2 : Ref) (nfft : ℕ) (delta : ℝ)
    (ps : Option PazRef) (hn : n ≤ h.cells.length) (hd2 : n ≤ d2) :
    Heap.AgreesBelow n h (simMul h d2 nfft delta ps) := by
  rcases ps with _ | ps
  · exact Heap.agreesBelow_refl n h hn
  · exact Heap.agreesBelow_write n h d2 _ hn hd2

/-- The removal-sensitivity scaling only writes the output buffer. -/
theorem removeSens_frame (n : ℕ) (h : Heap) (d4 : Ref) (pr : Option PazRef)
    (rs : Bool) (hn : n ≤ h.cells.length) (hd4 : n ≤ d4) :
    Heap.AgreesBelow n h (removeSens h d4 pr rs) := by
  rcases pr with _ | pr <;> rcases rs
  · exact Heap.agreesBelow_refl n h hn
  · exact Heap.agreesBelow_refl n h hn
  · exact Heap.agreesBelow_refl n h hn
  · exact Heap.agreesBelow_write n h d4 _ hn hd4

/-- The simulate-sensitivity scaling only writes the output buffer. -/
theorem simulateSens_frame (n : ℕ) (h : Heap) (d4 : Ref) (ps : Option PazRef)
    (ss : Bool) (hn : n ≤ h.cells.length) (hd4 : n ≤ d4) :
    Heap.AgreesBelow n h (simulateSens h d4 ps ss) := by
  rcases ps with _ | ps <;> rcases ss
  · exact Heap.agreesBelow_refl n h hn
  · exact Heap.agreesBelow_refl n h hn
  · exact Heap.agreesBelow_refl n h hn
  · exact Heap.agreesBelow_write n h d4 _ hn hd4

/-- The tail of the pipeline does not disturb caller-owned cells, and the
returned buffer is freshly allocated. -/
theorem seisSimPost_frame (n : ℕ) (h : Heap) (d2 : Ref) (ndat nfft : ℕ)
    (delta : ℝ) (pr ps : Option PazRef) (rs ss : Bool)
    (hn : n ≤ h.cells.length) (hd2 : n ≤ d2) :
    Heap.AgreesBelow n h (seisSimPost h d2 ndat nfft delta pr ps rs ss).1 ∧
      n ≤ (seisSimPost h d2 ndat nfft delta pr ps rs ss).2 := by
  have s1 : Heap.AgreesBelow n h (simMul h d2 nfft delta ps) :=
    simMul_frame n h d2 nfft delta ps hn hd2
  have s2 : Heap.AgreesBelow n (simMul h d2 nfft delta ps)
      ((simMul h d2 nfft delta ps).alloc
        ((irfft ((simMul h d2 nfft delta ps).read d2)).take ndat)).1 :=
    Heap.agreesBelow_alloc n _ _ s1.1
  have s3 := Heap.agreesBelow_alloc n
    ((simMul h d2 nfft delta ps).alloc
      ((irfft ((simMul h d2 nfft delta ps).read d2)).take ndat)).1
    (simpleDetrend (((simMul h d2 nfft delta ps).alloc
      ((irfft ((simMul h d2 nfft delta ps).read d2)).take ndat)).1.read
        ((simMul h d2 nfft delta ps).alloc
          ((irfft ((simMul h d2 nfft delta ps).read d2)).take ndat)).2)) s2.1
  have href : n ≤ (((simMul h d2 nfft delta ps).alloc
      ((irfft ((simMul h d2 nfft delta ps).read d2)).take ndat)).1.alloc
        (simpleDetrend (((simMul h d2 nfft delta ps).alloc
          ((irfft ((simMul h d2 nfft delta ps).read d2)).take ndat)).1.read
            ((simMul h d2 nfft delta ps).alloc
              ((irfft ((simMul h d2 nfft delta ps).read d2)).take ndat)).2))).2 :=
    s2.1
  have s4 := removeSens_frame n _ _ pr rs s3.1 href
  have s5 := simulateSens_frame n _ _ ps ss s4.1 href
  exact ⟨Heap.agreesBelow_trans s1 (Heap.agreesBelow_trans s2
    (Heap.agreesBelow_trans s3 (Heap.agreesBelow_trans s4 s5))), href⟩

/-- The spectral part of the pipeline does not disturb caller-owned cells,
and returns a fresh buffer. -/
theorem seisSimSpec_frame (n : ℕ) (h2 : Heap) (d : Ref) (ndat : ℕ)
    (delta : ℝ) (pr ps : Option PazRef) (rs ss : Bool) (wl : ℝ)
    (pf : Option (ℝ × ℝ × ℝ × ℝ)) (sr : Option (List ℂ)) (np2 : Bool)
    (h' : Heap) (out : Ref)
    (hok : seisSimSpec h2 d ndat delta pr ps rs ss wl pf sr np2
      = Except.ok (h', out))
    (hn : n ≤ h2.cells.length) :
    Heap.AgreesBelow n h2 h' ∧ n ≤ out := by
  rw [seisSimSpec] at hok
  split at hok
  · exact absurd hok (by simp)
  · rename_i h3 hrem
    have hpost := Except.ok.inj hok
    obtain rfl : h' = (seisSimPost h3
        (h2.alloc (rfft (h2.read d) (seisSimNfft ndat np2))).2 ndat
        (seisSimNfft ndat np2) delta pr ps rs ss).1 :=
      (congrArg Prod.fst hpost).symm
    obtain rfl : out = (seisSimPost h3
        (h2.alloc (rfft (h2.read d) (seisSimNfft ndat np2))).2 ndat
        (seisSimNfft ndat np2) delta pr ps rs ss).2 :=
      (congrArg Prod.snd hpost).symm
    have s3 : Heap.AgreesBelow n h2
        (h2.alloc (rfft (h2.read d) (seisSimNfft ndat np2))).1 :=
      Heap.agreesBelow_alloc n h2 _ hn
    have s4 : Heap.AgreesBelow n
        (h2.alloc (rfft (h2.read d) (seisSimNfft ndat np2))).1 h3 :=
      seisSimRemoval_frame n _
        (h2.alloc (rfft (h2.read d) (seisSimNfft ndat np2))).2 _ _ delta pr sr
        pf wl h3 hrem s3.1 hn
    have spost := seisSimPost_frame n h3
      (h2.alloc (rfft (h2.read d) (seisSimNfft ndat np2))).2 ndat
      (seisSimNfft ndat np2) delta pr ps rs ss s4.1 hn
    exact ⟨Heap.agreesBelow_trans s3 (Heap.agreesBelow_trans s4 spost.1),
      spost.2⟩

/-- C5: for every input trace, every heap and every combination of the
other flags, `seisSim` with `paz_remove = paz_simulate = seedresp = None`
raises `TypeError` immediately (invsim.py lines 383-385): no heap cell is
touched, no numeric computation is reached, and no trace reference is
returned. -/
theorem seisSim_no_descriptor_error (h : Heap) (dataRef : Ref) (samp_rate : ℝ)
    (rs ss : Bool) (wl : ℝ) (zm tp : Bool) (tf : ℝ)
    (pf : Option (ℝ × ℝ × ℝ × ℝ)) (np2 : Bool) :
    seisSim h dataRef samp_rate none none rs ss wl zm tp tf pf none np2
      = Except.error
          "Neither inverse nor forward instrument simulation specified." := by
  rw [seisSim]
  rfl

/-- C8 (amended): a successful `seisSim` call mutates NO caller-owned
state at all: every heap cell that existed before the call — the caller's
data array and the pole/zero lists of both response dictionaries in
particular — reads exactly the same afterwards, and the returned buffer is
a fresh allocation.  (The array that `specInv` mutates in place is the
`freq_response` array freshly created inside the call, not a structure the
caller passed in.) -/
theorem seisSim_frame (h : Heap) (dataRef : Ref) (samp_rate : ℝ)
    (pr ps : Option PazRef) (rs ss : Bool) (wl : ℝ) (zm tp : Bool) (tf : ℝ)
    (pf : Option (ℝ × ℝ × ℝ × ℝ)) (sr : Option (List ℂ)) (np2 : Bool)
    (h' : Heap) (out : Ref)
    (hok : seisSim h dataRef samp_rate pr ps rs ss wl zm tp tf pf sr np2
      = Except.ok (h', out)) :
    (∀ r, r < h.cells.length → h'.read r = h.read r) ∧
      h.cells.length ≤ out := by
  rw [seisSim] at hok
  split at hok
  · exact absurd hok (by simp)
  · split at hok
    · exact absurd hok (by simp)
    · rename_i h2 htap
      have s0 : Heap.AgreesBelow h.cells.length h (h.alloc (h.read dataRef)).1 :=
        Heap.agreesBelow_alloc _ h _ le_rfl
      have hap2 : h.cells.length ≤ (h.alloc (h.read dataRef)).2 := le_rfl
      have s1 := zeroMean_frame h.cells.length (h.alloc (h.read dataRef)).1
        (h.alloc (h.read dataRef)).2 zm s0.1 hap2
      have s2 : Heap.AgreesBelow h.cells.length
          (zeroMean (h.alloc (h.read dataRef)).1 (h.alloc (h.read dataRef)).2 zm)
          h2 :=
        seisSimTaper_frame _ _ (h.alloc (h.read dataRef)).2
          (h.read dataRef).length tp tf h2 htap s1.1 hap2
      have sspec := seisSimSpec_frame h.cells.length h2
        (h.alloc (h.read dataRef)).2 (h.read dataRef).length (1 / samp_rate)
        pr ps rs ss wl pf sr np2 h' out hok s2.1
      exact ⟨(Heap.agreesBelow_trans s0 (Heap.agreesBelow_trans s1
        (Heap.agreesBelow_trans s2 sspec.1))).2, sspec.2⟩

/-- `np.fft.rfft` of the single zero sample, padded to 4 points: all three
bins are zero. -/
theorem rfft_single_zero : rfft [(0 : ℂ)] 4 = [0, 0, 0] := by
  rw [rfft]
  rw [show List.range (4 / 2 + 1) = [0, 1, 2] from rfl]
  simp [Finset.sum_range_succ]

/-- The trivial instrument (no poles, no zeros, unit gain) has unit
response on the 3-point grid. -/
theorem pazToFreqResp_trivial_eval : pazToFreqResp [] [] 1 1 4 true = [1, 1, 1] := by
  simp only [pazToFreqResp, poly, List.foldl_nil, List.map_cons, List.map_nil, mul_one]
  rw [linspace_eq_map _ _ _ (by norm_num)]
  rw [show List.range (4 / 2 + 1) = [0, 1, 2] from rfl]
  simp [polyval]

/-- `specInv` of the all-ones response at the default 600 dB water level is
the all-ones response (every bin is far above the water level `10^(-30)`
and inverts to `1/1`). -/
theorem specInv_ones_eval : specInv [(1 : ℂ), 1, 1] 600 = some [1, 1, 1] := by
  have hw : (10 : ℝ) ^ (-(600 : ℝ) / 20) ≤ 1 :=
    Real.rpow_le_one_of_one_le_of_nonpos (by norm_num) (by norm_num)
  have hm : maxAbs [(1 : ℂ), 1, 1] = 1 := by
    simp [maxAbs]
  have hwl : waterlevel [(1 : ℂ), 1, 1] 600 = (10 : ℝ) ^ (-(600 : ℝ) / 20) := by
    rw [waterlevel, hm, one_mul]
  have hcl : clampBin ((10 : ℝ) ^ (-(600 : ℝ) / 20)) (1 : ℂ) = 1 := by
    rw [clampBin, if_neg]
    simp only [map_one]
    intro hcon
    exact absurd hcon.1 (not_lt.mpr hw)
  have hinv : invBin (1 : ℂ) = 1 := by
    rw [invBin, if_pos (by simp)]
    norm_num
  rw [specInv, hwl]
  simp [hcl, hinv]

/-- `np.fft.irfft` of the zero half-spectrum of length 3 is the zero signal
of length 4. -/
theorem irfft_zeros_eval : irfft [(0 : ℂ), 0, 0] = [0, 0, 0, 0] := by
  rw [irfft]
  rw [show List.range (2 * (([(0 : ℂ), 0, 0]).length - 1)) = [0, 1, 2, 3] from rfl]
  simp [hermExt, Finset.sum_range_succ]

/-- Detrending the single zero sample gives the single zero sample. -/
theorem simpleDetrend_single_eval : simpleDetrend [(0 : ℂ)] = [0] := by
  rw [simpleDetrend]
  simp

/-- With no pre-filter the data spectrum is untouched. -/
theorem preFilt_none (h : Heap) (d2 : Ref) (freqs : List ℝ) :
    preFilt h d2 freqs none = h := rfl

/-- With no simulation instrument the data spectrum is untouched. -/
theorem simMul_none (h : Heap) (d2 : Ref) (nfft : ℕ) (delta : ℝ) :
    simMul h d2 nfft delta none = h := rfl

/-- A full concrete deconvolution run: the one-sample zero trace at
`samp_rate = 1`, removing the trivial instrument whose pole/zero lists are
the caller-owned cells 1 and 2, with `zero_mean = taper = False`, no
pre-filter, no RESP descriptor.  The run succeeds; cells 0-2 (the caller's
data array and the `paz_remove` pole and zero lists) are bitwise unchanged
in the final heap, and the returned buffer is the fresh cell 7. -/
theorem seisSim_concrete_run :
    seisSim ⟨[[0], [], []]⟩ 0 1 (some ⟨1, 2, 1, 1⟩) none true true 600 false
      false (5 / 100) none none false
      = Except.ok (⟨[[0], [], [], [0], [0, 0, 0], [1, 1, 1], [0], [0]]⟩, 7) := by
  have hrem : seisSimRemoval ⟨[[0], [], [], [0], [0, 0, 0]]⟩ 4
      (linspace 0 (1 / (1 * 2)) (4 / 2 + 1)) 4 1 (some ⟨1, 2, 1, 1⟩) none none 600
      = Except.ok ⟨[[0], [], [], [0], [0, 0, 0], [1, 1, 1]]⟩ := by
    rw [seisSimRemoval]
    rw [show removalResp ⟨[[0], [], [], [0], [0, 0, 0]]⟩ 1 4 (some ⟨1, 2, 1, 1⟩) none
        = some (pazToFreqResp [] [] 1 1 4 true) from rfl]
    rw [pazToFreqResp_trivial_eval]
    simp only []
    rw [preFilt_none]
    rw [show ((⟨[[0], [], [], [0], [0, 0, 0]]⟩ : Heap).alloc [(1 : ℂ), 1, 1]).1
        = ⟨[[0], [], [], [0], [0, 0, 0], [1, 1, 1]]⟩ from rfl,
      show ((⟨[[0], [], [], [0], [0, 0, 0]]⟩ : Heap).alloc [(1 : ℂ), 1, 1]).2 = 5 from rfl]
    rw [seisSimInv]
    rw [show (⟨[[0], [], [], [0], [0, 0, 0], [1, 1, 1]]⟩ : Heap).read 5
        = [(1 : ℂ), 1, 1] from rfl]
    rw [specInv_ones_eval]
    simp only []
    rw [show (⟨[[0], [], [], [0], [0, 0, 0], [1, 1, 1]]⟩ : Heap).write 5 [(1 : ℂ), 1, 1]
        = ⟨[[0], [], [], [0], [0, 0, 0], [1, 1, 1]]⟩ from rfl]
    rw [deconvMul]
    rw [show (⟨[[0], [], [], [0], [0, 0, 0], [1, 1, 1]]⟩ : Heap).read 4
        = [(0 : ℂ), 0, 0] from rfl,
      show (⟨[[0], [], [], [0], [0, 0, 0], [1, 1, 1]]⟩ : Heap).read 5
        = [(1 : ℂ), 1, 1] from rfl]
    rw [show ([(1 : ℂ), 1, 1]).map (starRingEnd ℂ) = [1, 1, 1] from by simp]
    rw [show ([(0 : ℂ), 0, 0]).zipWith (fun x y => x * y) [(1 : ℂ), 1, 1] = [0, 0, 0]
      from by simp]
    rw [show (⟨[[0], [], [], [0], [0, 0, 0], [1, 1, 1]]⟩ : Heap).write 4 [(0 : ℂ), 0, 0]
        = ⟨[[0], [], [], [0], [0, 0, 0], [1, 1, 1]]⟩ from rfl]
  rw [seisSim, if_neg (by simp)]
  rw [show (1 : ℝ) / 1 = 1 from by norm_num]
  rw [show (⟨[[0], [], []]⟩ : Heap).read 0 = [(0 : ℂ)] from rfl]
  rw [show ((⟨[[0], [], []]⟩ : Heap).alloc [(0 : ℂ)]).1 = ⟨[[0], [], [], [0]]⟩ from rfl,
    show ((⟨[[0], [], []]⟩ : Heap).alloc [(0 : ℂ)]).2 = 3 from rfl,
    show ([(0 : ℂ)]).length = 1 from rfl]
  rw [show zeroMean ⟨[[0], [], [], [0]]⟩ 3 false = ⟨[[0], [], [], [0]]⟩ from by
    rw [zeroMean]; simp]
  rw [show seisSimTaper ⟨[[0], [], [], [0]]⟩ 3 1 false (5 / 100)
      = Except.ok ⟨[[0], [], [], [0]]⟩ from by rw [seisSimTaper]; simp]
  simp only []
  rw [seisSimSpec]
  rw [show seisSimNfft 1 false = 4 from rfl]
  rw [show (⟨[[0], [], [], [0]]⟩ : Heap).read 3 = [(0 : ℂ)] from rfl]
  rw [rfft_single_zero]
  rw [show ((⟨[[0], [], [], [0]]⟩ : Heap).alloc [(0 : ℂ), 0, 0]).1
      = ⟨[[0], [], [], [0], [0, 0, 0]]⟩ from rfl,
    show ((⟨[[0], [], [], [0]]⟩ : Heap).alloc [(0 : ℂ), 0, 0]).2 = 4 from rfl]
  rw [hrem]
  simp only []
  rw [seisSimPost, simMul_none]
  rw [show (⟨[[0], [], [], [0], [0, 0, 0], [1, 1, 1]]⟩ : Heap).read 4
      = [(0 : ℂ), 0, 0] from rfl]
  rw [irfft_zeros_eval]
  rw [show ([(0 : ℂ), 0, 0, 0]).take 1 = [0] from rfl]
  rw [show ((⟨[[0], [], [], [0], [0, 0, 0], [1, 1, 1]]⟩ : Heap).alloc [(0 : ℂ)]).1
      = ⟨[[0], [], [], [0], [0, 0, 0], [1, 1, 1], [0]]⟩ from rfl,
    show ((⟨[[0], [], [], [0], [0, 0, 0], [1, 1, 1]]⟩ : Heap).alloc [(0 : ℂ)]).2 = 6
      from rfl]
  rw [show (⟨[[0], [], [], [0], [0, 0, 0], [1, 1, 1], [0]]⟩ : Heap).read 6 = [(0 : ℂ)]
    from rfl]
  rw [simpleDetrend_single_eval]
  rw [show ((⟨[[0], [], [], [0], [0, 0, 0], [1, 1, 1], [0]]⟩ : Heap).alloc [(0 : ℂ)]).1
      = ⟨[[0], [], [], [0], [0, 0, 0], [1, 1, 1], [0], [0]]⟩ from rfl,
    show ((⟨[[0], [], [], [0], [0, 0, 0], [1, 1, 1], [0]]⟩ : Heap).alloc [(0 : ℂ)]).2 = 7
      from rfl]
  rw [show removeSens ⟨[[0], [], [], [0], [0, 0, 0], [1, 1, 1], [0], [0]]⟩ 7
      (some ⟨1, 2, 1, 1⟩) true
      = (⟨[[0], [], [], [0], [0, 0, 0], [1, 1, 1], [0], [0]]⟩ : Heap).write 7
          (((⟨[[0], [], [], [0], [0, 0, 0], [1, 1, 1], [0], [0]]⟩ : Heap).read 7).map
            (fun x => x / ((1 : ℝ) : ℂ))) from rfl]
  rw [show (⟨[[0], [], [], [0], [0, 0, 0], [1, 1, 1], [0], [0]]⟩ : Heap).read 7
      = [(0 : ℂ)] from rfl]
  rw [show ([(0 : ℂ)]).map (fun x => x / ((1 : ℝ) : ℂ)) = [0] from by simp]
  rw [show (⟨[[0], [], [], [0], [0, 0, 0], [1, 1, 1], [0], [0]]⟩ : Heap).write 7 [(0 : ℂ)]
      = ⟨[[0], [], [], [0], [0, 0, 0], [1, 1, 1], [0], [0]]⟩ from rfl]
  rw [show simulateSens ⟨[[0], [], [], [0], [0, 0, 0], [1, 1, 1], [0], [0]]⟩ 7 none true
      = ⟨[[0], [], [], [0], [0, 0, 0], [1, 1, 1], [0], [0]]⟩ from rfl]

/-- C8 counterexample: a successful deconvolution run (data in cell 0,
`paz_remove` pole list in cell 1 and zero list in cell 2) after which the
passed-in removal response structure is NOT mutated and NOT consumed: the
pole and zero cells (and the caller's data cell) read exactly their
original values.  What `specInv` mutates in place is `freq_response`
(cell 5), a fresh array created inside the call by `pazToFreqResp` — not
caller-owned state. -/
theorem seisSim_paz_not_consumed_cex :
    seisSim ⟨[[0], [], []]⟩ 0 1 (some ⟨1, 2, 1, 1⟩) none true true 600 false
      false (5 / 100) none none false
      = Except.ok (⟨[[0], [], [], [0], [0, 0, 0], [1, 1, 1], [0], [0]]⟩, 7) ∧
    (⟨[[0], [], [], [0], [0, 0, 0], [1, 1, 1], [0], [0]]⟩ : Heap).read 1
      = (⟨[[0], [], []]⟩ : Heap).read 1 ∧
    (⟨[[0], [], [], [0], [0, 0, 0], [1, 1, 1], [0], [0]]⟩ : Heap).read 2
      = (⟨[[0], [], []]⟩ : Heap).read 2 ∧
    (⟨[[0], [], [], [0], [0, 0, 0], [1, 1, 1], [0], [0]]⟩ : Heap).read 0
      = (⟨[[0], [], []]⟩ : Heap).read 0 :=
  ⟨seisSim_concrete_run, rfl, rfl, rfl⟩

/-- C8 witness: the frame theorem applied to the concrete run above. -/
theorem seisSim_frame_witness :
    seisSim ⟨[[0], [], []]⟩ 0 1 (some ⟨1, 2, 1, 1⟩) none true true 600 false
      false (5 / 100) none none false
      = Except.ok (⟨[[0], [], [], [0], [0, 0, 0], [1, 1, 1], [0], [0]]⟩, 7) ∧
    (∀ r, r < (⟨[[0], [], []]⟩ : Heap).cells.length →
      (⟨[[0], [], [], [0], [0, 0, 0], [1, 1, 1], [0], [0]]⟩ : Heap).read r
        = (⟨[[0], [], []]⟩ : Heap).read r) ∧
    (⟨[[0], [], []]⟩ : Heap).cells.length ≤ 7 :=
  ⟨seisSim_concrete_run,
    (seisSim_frame _ _ _ _ _ _ _ _ _ _ _ _ _ _ _ _ seisSim_concrete_run).1,
    (seisSim_frame _ _ _ _ _ _ _ _ _ _ _ _ _ _ _ _ seisSim_concrete_run).2⟩
